import Mathlib

/-!
Verification development for the dockerview log pane
(src/dockerview/ui/viewers/log_pane.py).

The pure parts of the module (line sanitizer, since-token parser, filter
matching, bounded line buffer) are embedded as executable Lean functions;
the stateful log pane (session ids, intake queue, drain step, filter
re-scan, selection updates) is embedded as explicit state passing over a
`LogState` record, with a small event system describing the interleavings
of reader enqueues, selection changes and drain ticks.

Strings are modelled with Lean `String`/`List Char`; the Python string
operations `lower`, `rstrip`, `strip`, and `in` (substring containment)
are modelled on the ASCII subset, which is the subset the tests
and data of the repository exercise.
-/

namespace Dockerview

/-! ### Line sanitizer (log_pane.py lines 20-32, 656-661)

The source compiles the pattern `ESC ( [@-Z\\-_] | LBRACKET [0-?]* [SPACE-SLASH]* [@-~] )`
(raw string at log_pane.py line 20) and `strip_ansi_codes` substitutes
every non-overlapping match with "". Because the character classes
`[0-?]` (0x30-0x3F), `[SPACE-SLASH]` (0x20-0x2F) and
`[@-~]` (0x40-0x7E) are pairwise disjoint, the greedy left-to-right
scan of `re.sub` is deterministic and is embedded below as a one-pass
state machine: `normal` outside any candidate match, `afterEsc` after an
ESC byte, `inParams`/`inInters` inside a candidate `ESC [` sequence; the
characters of a failed candidate are emitted verbatim and scanning
resumes at the character that broke the candidate (which is sound because
no candidate character other than a leading ESC can start a match). -/

def escChar : Char := '\x1b'

/-- Character class `[@-Z\\-_]` of the source pattern: 0x40-0x5A plus the
range backslash-to-underscore 0x5C-0x5F. -/
def isAnsiSingle (c : Char) : Bool :=
  (0x40 ≤ c.toNat && c.toNat ≤ 0x5A) || (0x5C ≤ c.toNat && c.toNat ≤ 0x5F)

/-- Character class `[0-?]` (0x30-0x3F). -/
def isCsiParam (c : Char) : Bool := 0x30 ≤ c.toNat && c.toNat ≤ 0x3F

/-- Character class from space (0x20) to slash (0x2F). -/
def isCsiInter (c : Char) : Bool := 0x20 ≤ c.toNat && c.toNat ≤ 0x2F

/-- Character class `[@-~]` (0x40-0x7E). -/
def isCsiFinal (c : Char) : Bool := 0x40 ≤ c.toNat && c.toNat ≤ 0x7E

/-- Scanner mode of the `re.sub` embedding, carrying the characters of the
current candidate match that would have to be re-emitted on failure. -/
inductive AnsiScan
  | normal
  | afterEsc
  | inParams (ps : List Char)
  | inInters (ps : List Char) (is : List Char)

/-- Characters of the pending (incomplete) candidate match. -/
def AnsiScan.pending : AnsiScan → List Char
  | .normal => []
  | .afterEsc => [escChar]
  | .inParams ps => escChar :: '[' :: ps
  | .inInters ps is => escChar :: '[' :: (ps ++ is)

def stripAnsiGo : List Char → AnsiScan → List Char
  | [], m => m.pending
  | c :: rest, .normal =>
      if c = escChar then stripAnsiGo rest .afterEsc
      else c :: stripAnsiGo rest .normal
  | c :: rest, .afterEsc =>
      if isAnsiSingle c then stripAnsiGo rest .normal
      else if c = '[' then stripAnsiGo rest (.inParams [])
      else if c = escChar then escChar :: stripAnsiGo rest .afterEsc
      else escChar :: c :: stripAnsiGo rest .normal
  | c :: rest, .inParams ps =>
      if isCsiParam c then stripAnsiGo rest (.inParams (ps ++ [c]))
      else if isCsiInter c then stripAnsiGo rest (.inInters ps [c])
      else if isCsiFinal c then stripAnsiGo rest .normal
      else if c = escChar then (AnsiScan.inParams ps).pending ++ stripAnsiGo rest .afterEsc
      else (AnsiScan.inParams ps).pending ++ (c :: stripAnsiGo rest .normal)
  | c :: rest, .inInters ps is =>
      if isCsiInter c then stripAnsiGo rest (.inInters ps (is ++ [c]))
      else if isCsiFinal c then stripAnsiGo rest .normal
      else if c = escChar then (AnsiScan.inInters ps is).pending ++ stripAnsiGo rest .afterEsc
      else (AnsiScan.inInters ps is).pending ++ (c :: stripAnsiGo rest .normal)

/-- `strip_ansi_codes` of the source (log_pane.py line 23). -/
def strip_ansi_codes (s : String) : String := ⟨stripAnsiGo s.data .normal⟩

/-- The ASCII whitespace characters removed by Python `str.rstrip()`. -/
def pyIsSpace (c : Char) : Bool :=
  c = ' ' || c = '\t' || c = '\n' || c = '\x0d' || c = '\x0b' || c = '\x0c'

/-- Python `str.rstrip()` (ASCII whitespace). -/
def pyRstrip (l : List Char) : List Char := (l.reverse.dropWhile pyIsSpace).reverse

/-- The per-line sanitizing performed by the readers
(log_pane.py lines 659-661): `line = line.rstrip()` followed by
`line = strip_ansi_codes(line)`. -/
def sanitizeLine (s : String) : String := strip_ansi_codes ⟨pyRstrip s.data⟩

end Dockerview

namespace Dockerview

/-! ### Time-window parser (log_pane.py lines 921-954)

`_convert_since_to_timestamp` matches the token against the anchored
pattern `CARET (BACKSLASH-d PLUS) ([mhd]) DOLLAR`; on a match it returns
`now - value * unit_seconds`, otherwise it logs a warning and returns
`now - 15 * 60`. Two Python subtleties are embedded faithfully: the
greedy digit group never backtracks (digits and the unit letters are
disjoint), and the DOLLAR anchor also matches just before one trailing
newline, so a token such as "5m" followed by a single newline matches.
Digits are modelled as ASCII digits. `now` (`time.time()`) is passed as
an explicit parameter. -/

/-- Seconds per unit letter; the defensive `else` branch of the source
(unreachable through the regex) maps any other letter to 15 minutes. -/
def sinceUnitSeconds (u : Char) : Nat :=
  if u = 'm' then 60
  else if u = 'h' then 3600
  else if u = 'd' then 86400
  else 15 * 60

/-- Value of an ASCII digit string, as computed by Python `int()`. -/
def digitsToNat (ds : List Char) : Nat :=
  ds.foldl (fun a c => a * 10 + (c.toNat - 48)) 0

/-- The token body examined by the anchored pattern: the DOLLAR anchor of
Python `re` also matches just before one trailing newline, so one final
newline is ignored. -/
def sinceBody (s : String) : List Char :=
  if s.data.getLast? = some '\n' then s.data.dropLast else s.data

/-- The anchored regex match of the source: the token body must be one or
more digits followed by one of the letters m, h, d. -/
def parseSinceToken (s : String) : Option (Nat × Char) :=
  if (sinceBody s).takeWhile Char.isDigit ≠ [] ∧
      ((sinceBody s).dropWhile Char.isDigit = ['m'] ∨
       (sinceBody s).dropWhile Char.isDigit = ['h'] ∨
       (sinceBody s).dropWhile Char.isDigit = ['d']) then
    some (digitsToNat ((sinceBody s).takeWhile Char.isDigit),
          ((sinceBody s).dropWhile Char.isDigit).headD 'm')
  else none

/-- `_convert_since_to_timestamp` (log_pane.py line 921), with `now` the
value of `time.time()` truncated to an integer. -/
def convert_since_to_timestamp (now : Int) (sinceStr : String) : Int :=
  match parseSinceToken sinceStr with
  | none => now - 15 * 60
  | some (v, u) => now - (v : Int) * (sinceUnitSeconds u : Int)

/-- Declarative reading of the source pattern
`CARET (BACKSLASH-d PLUS) ([mhd]) DOLLAR` under Python semantics: the
token consists of a nonempty digit string with value `v`, then the unit
letter `u`, then optionally one final newline. -/
def SinceTokenMatches (s : String) (v : Nat) (u : Char) : Prop :=
  ∃ ds : List Char, ds ≠ [] ∧ (∀ c ∈ ds, c.isDigit = true) ∧
    (u = 'm' ∨ u = 'h' ∨ u = 'd') ∧
    (s.data = ds ++ [u] ∨ s.data = ds ++ [u, '\n']) ∧ digitsToNat ds = v

end Dockerview

namespace Dockerview

/-! ### Filter matching and bounded buffer

The pane stores raw lines in `deque(maxlen=MAX_LINES)` (log_pane.py
lines 209-214, default `config.get("log.max_lines", 2000)`), and the
filter test of the drain step and of `_refilter_logs` is
`not self.search_filter or self.search_filter.lower() in content.lower()`
(lines 837-839 and 970). -/

/-- Python `str.lower()` (ASCII). -/
def pyLower (s : String) : String := ⟨s.data.map Char.toLower⟩

/-- Whether `needle` is a leading segment of `hay`. -/
def charsEqPre : List Char → List Char → Bool
  | [], _ => true
  | _ :: _, [] => false
  | a :: as, b :: bs => a == b && charsEqPre as bs

/-- Whether `needle` occurs contiguously inside `hay`. -/
def charsContain (needle : List Char) : List Char → Bool
  | [] => needle.isEmpty
  | c :: t => charsEqPre needle (c :: t) || charsContain needle t

/-- Python `needle in hay` on strings: contiguous substring containment. -/
def strContainsSub (hay needle : String) : Bool := charsContain needle.data hay.data

/-- Python `str.strip()` (ASCII whitespace, both ends). -/
def pyStrip (s : String) : String :=
  ⟨((s.data.dropWhile pyIsSpace).reverse.dropWhile pyIsSpace).reverse⟩

/-- The filter predicate: the empty pattern matches everything, otherwise
case-insensitive substring containment. -/
def matchesFilter (pat line : String) : Bool :=
  if pat = "" then true else strContainsSub (pyLower line) (pyLower pat)

/-- `deque.append` under `maxlen = cap`: the new element is appended and,
if the deque would exceed `cap`, the oldest element is dropped. -/
def appendBounded (cap : Nat) (buf : List String) (x : String) : List String :=
  (buf ++ [x]).drop (buf.length + 1 - cap)

/-! ### The log pane state

`LogState` collects exactly the instance attributes of `LogPane` that the
streaming/session/filter logic reads or writes, with the `TextArea`
display sink abstracted to its text content (`display`); scroll position
is outside the model. `item_data` dictionaries are modelled as
association lists; `queue.Queue` as the list of not-yet-drained records. -/

abbrev ItemData := List (String × String)

/-- Python `d.get(k, dflt)` on an item-data dictionary. -/
def itemGet (d : ItemData) (k dflt : String) : String := (d.lookup k).getD dflt

/-- Python truthiness of `self.current_item_data` (None or empty dict are
falsy). -/
def itemTruthy : Option ItemData → Bool
  | none => false
  | some d => !d.isEmpty

/-- The message kinds travelling on the intake queue: `"log"`, `"error"`,
`"no_logs"`. -/
inductive MsgType
  | log
  | error
  | noLogs
deriving DecidableEq

/-- One queued record `(session_id, msg_type, content)`. -/
structure Record where
  sid : Nat
  msg : MsgType
  content : String
deriving DecidableEq

@[ext]
structure LogState where
  sessionId : Nat
  allLogLines : List String
  display : String
  searchFilter : String
  filteredLineCount : Nat
  waitingForLogs : Bool
  initialLogCheckDone : Bool
  showingNoLogs : Bool
  autoFollow : Bool
  currentItem : Option (String × String)
  currentItemData : Option ItemData
  queue : List Record
  maxLines : Nat
deriving DecidableEq

/-- `_get_no_logs_message` (log_pane.py line 901). -/
def noLogsMessage (item : Option (String × String)) : String :=
  let ti := item.getD (("", ""))
  "No logs found for " ++ ti.1 ++ ": " ++ ti.2 ++ "\n\n" ++
  "This could mean:\n" ++
  "  • The container/stack hasn\x27t produced logs in the selected time range\n" ++
  "  • The container/stack was recently started\n" ++
  "  • Logs may have been cleared or rotated\n\n" ++
  "Try adjusting the log settings above to see more history.\n\n" ++
  "Waiting for new logs..."

def loadingMessage (itemType itemId : String) : String :=
  "Loading logs for " ++ itemType ++ ": " ++ itemId ++ "...\n"

def notRunningMessage (name status : String) : String :=
  "Container \x27" ++ name ++ "\x27 is not running.\nStatus: " ++ status

def startedLoadingMessage (name : String) : String :=
  "Container \x27" ++ name ++ "\x27 started. Loading logs...\n"

def noLogsForKindMessage (kindPlural : String) : String :=
  kindPlural ++ " do not have logs. Select a container or stack to view logs."

/-! ### Drain step (`_process_log_queue`, log_pane.py lines 805-899) -/

/-- The body of the drain loop for one dequeued record: the session gate
`if session_id != 0 and session_id != self.log_session_id: continue`
followed by the dispatch on the message type. Returns the new state and
whether the record was processed (counted in `processed`) rather than
skipped. Records are always the 3-tuples produced by the readers; the
defensive branch for legacy 2-tuples (lines 818-821) has no producer in
the module and is not modelled. -/
def processOne (s : LogState) (r : Record) : LogState × Bool :=
  if r.sid ≠ 0 ∧ r.sid ≠ s.sessionId then (s, false)
  else
    match r.msg with
    | .log =>
        let buf := appendBounded s.maxLines s.allLogLines r.content
        if matchesFilter s.searchFilter r.content then
          let d0 := if s.searchFilter ≠ "" ∧ s.filteredLineCount = 0 then ("") else s.display
          let d1 := if s.showingNoLogs then ("") else d0
          ({ s with allLogLines := buf,
                    display := d1 ++ r.content ++ "\n",
                    filteredLineCount := s.filteredLineCount + 1,
                    showingNoLogs := false }, true)
        else ({ s with allLogLines := buf }, true)
    | .error =>
        ({ s with display := s.display ++ "ERROR: " ++ r.content ++ "\n" }, true)
    | .noLogs =>
        if s.waitingForLogs then
          ({ s with display := noLogsMessage s.currentItem,
                    waitingForLogs := false,
                    showingNoLogs := true }, true)
        else (s, true)

/-- The bounded drain loop `for _ in range(50)`, stopping early when the
queue is empty; the fuel argument is the remaining iteration budget and
the accumulator counts processed records. -/
def drainBatch : Nat → LogState → Nat → LogState × Nat
  | 0, s, p => (s, p)
  | n + 1, s, p =>
    match s.queue with
    | [] => (s, p)
    | r :: rest =>
      let res := processOne { s with queue := rest } r
      drainBatch n res.1 (if res.2 then p + 1 else p)

/-- One timer tick of `_process_log_queue`: drain up to 50 records, then
if anything was processed set `initial_log_check_done` and, when a
non-empty filter matches none of a non-empty buffer, overwrite the
display with the no-match placeholder. -/
def process_log_queue (s : LogState) : LogState :=
  let sp := drainBatch 50 s 0
  if sp.2 > 0 then
    let s1 : LogState := { sp.1 with initialLogCheckDone := true }
    if s1.searchFilter ≠ "" ∧ s1.allLogLines ≠ [] ∧ s1.filteredLineCount = 0 then
      { s1 with display := "No log lines match filter" }
    else s1
  else sp.1

/-! ### Filter re-scan (`_refilter_logs`, log_pane.py lines 956-988) -/

/-- The display text computed by `_refilter_logs`: preserve the "no logs
found" message when it is showing over an empty buffer; otherwise render
every matching buffered line in order, or the no-match placeholder, or
the empty text. -/
def viewOf (flt : String) (buf : List String) (showingNoLogs : Bool)
    (item : Option (String × String)) : String :=
  if showingNoLogs ∧ buf = [] then noLogsMessage item
  else
    let fl := buf.filter (fun l => matchesFilter flt l)
    if fl ≠ [] then String.intercalate ("\n") fl ++ "\n"
    else if flt ≠ "" ∧ buf ≠ [] then ("No log lines match filter")
    else ("")

/-- The `filtered_line_count` computed by `_refilter_logs`. -/
def countOf (flt : String) (buf : List String) (showingNoLogs : Bool) : Nat :=
  if showingNoLogs ∧ buf = [] then 0
  else (buf.filter (fun l => matchesFilter flt l)).length

/-- `_refilter_logs`: recomputes display text and match count from the
buffer; mutates nothing else. -/
def refilter_logs (s : LogState) : LogState :=
  { s with display := viewOf s.searchFilter s.allLogLines s.showingNoLogs s.currentItem,
           filteredLineCount := countOf s.searchFilter s.allLogLines s.showingNoLogs }

/-- `on_input_changed` for the search input (log_pane.py line 990):
`self.search_filter = event.value.strip()` then `self._refilter_logs()`. -/
def on_input_changed (value : String) (s : LogState) : LogState :=
  refilter_logs { s with searchFilter := pyStrip value }

/-- `ps.foldl` of successive `set_filter` calls. -/
def applyFilters (ps : List String) (s : LogState) : LogState :=
  ps.foldl (fun st p => on_input_changed p st) s

/-- The full-buffer rendering of the display sink: all buffered lines in
insertion order (the text `_refilter_logs` produces when every line
matches), empty text for an empty buffer. -/
def renderAll (buf : List String) : String :=
  if buf = [] then ("") else String.intercalate ("\n") buf ++ "\n"

/-! ### Session controller (`update_selection` and friends,
log_pane.py lines 374-577, 996-1066) -/

/-- `_start_logs` (line 526): increments the session id and resets the
first-logs bookkeeping; spawning of the worker thread is represented by
the reader-enqueue events the new session enables. -/
def start_logs (s : LogState) : LogState :=
  if s.currentItem = none then s
  else { s with sessionId := s.sessionId + 1,
                waitingForLogs := true,
                initialLogCheckDone := false,
                showingNoLogs := false }

/-- `"running" in st or "up" in st` on a lowered status string. -/
def statusRunningLike (st : String) : Bool :=
  strContainsSub st ("running") || strContainsSub st ("up")

/-- `"exited" in st or "stopped" in st` on a lowered status string. -/
def statusStoppedLike (st : String) : Bool :=
  strContainsSub st ("exited") || strContainsSub st ("stopped")

/-- The two status-boundary tests of `update_selection` (lines 391-404):
running-to-stopped or stopped-to-running. -/
def statusCrossed (oldSt newSt : String) : Bool :=
  (statusRunningLike oldSt && statusStoppedLike newSt) ||
  (statusStoppedLike oldSt && statusRunningLike newSt)

/-- `_handle_status_change` (line 496): stop logs (queue cleared), store
the new metadata, clear display/buffer/count/flags, then either show the
not-running message or restart streaming. -/
def handle_status_change (d : ItemData) (s : LogState) : LogState :=
  let s1 := { s with queue := [], currentItemData := some d, display := "",
                     allLogLines := [], filteredLineCount := 0, showingNoLogs := false }
  let st := pyLower (itemGet d ("status") (""))
  let nm := itemGet d ("name") ((s.currentItem.getD (("", ""))).2)
  if statusStoppedLike st || strContainsSub st ("created") then
    { s1 with display := notRunningMessage nm (itemGet d ("status") ("")) }
  else if statusRunningLike st then
    start_logs { s1 with display := startedLoadingMessage nm }
  else s1

/-- The plural used by the header branches for the three log-less kinds. -/
def kindPluralOf (t : String) : String :=
  if t = "network" then ("Networks") else if t = "image" then ("Images") else ("Volumes")

/-- `update_selection` (line 374). Same selection: re-evaluate only on a
run/stop boundary, otherwise store the metadata and return. Different
selection: for the log-less kinds show the static message; otherwise
clear buffer and view, then either show the not-running message (stopped
container) or show the loading message and start a new session. In both
teardown paths `_stop_logs_async` clears the intake queue. -/
def update_selection (itemType itemId : String) (itemData : ItemData)
    (s : LogState) : LogState :=
  if s.currentItem = some (itemType, itemId) then
    if itemType = "container" ∧ itemTruthy s.currentItemData = true then
      let oldSt := pyLower (itemGet (s.currentItemData.getD []) ("status") (""))
      let newSt := pyLower (itemGet itemData ("status") (""))
      if statusCrossed oldSt newSt then handle_status_change itemData s
      else { s with currentItemData := some itemData }
    else { s with currentItemData := some itemData }
  else
    let s1 := { s with currentItem := some ((itemType, itemId)),
                       currentItemData := some itemData }
    if itemType = "network" ∨ itemType = "image" ∨ itemType = "volume" then
      { s1 with display := noLogsForKindMessage (kindPluralOf itemType),
                allLogLines := [], queue := [] }
    else
      let s2 := { s1 with display := "", allLogLines := [],
                          filteredLineCount := 0, showingNoLogs := false }
      let st := pyLower (itemGet itemData ("status") (""))
      if itemType = "container" ∧ itemGet itemData ("status") ("") ≠ "" ∧
          (statusStoppedLike st || strContainsSub st ("created")) = true then
        { s2 with display := notRunningMessage (itemGet itemData ("name") itemId)
                               (itemGet itemData ("status") ("")),
                  queue := [] }
      else
        start_logs { s2 with display := loadingMessage itemType itemId, queue := [] }

/-- `clear_selection` (line 472): stop logs (queue cleared), drop the
selection, clear display and buffer. -/
def clear_selection (s : LogState) : LogState :=
  { s with queue := [], currentItem := none, currentItemData := none,
           display := "", allLogLines := [] }

/-! ### Event system

The single-threaded UI context owns the state; reader threads interact
with it only through the intake queue. An `Event` is one atomic
occurrence on that context: an enqueue performed by some reader thread
(tagged with the session id the reader was spawned with, which is any
session id issued so far — superseded readers may still be running), a
sentinel enqueue from the no-logs probe or the stack watchdog (always
tagged 0, per `_check_no_logs_found`), a selection or filter change, or
one drain tick. -/

inductive Event
  | enqueueLog (sid : Nat) (line : String)
  | enqueueError (sid : Nat) (emsg : String)
  | enqueueNoLogs
  | updateSel (itemType itemId : String) (d : ItemData)
  | clearSel
  | inputChanged (value : String)
  | tick

def stepEvent (s : LogState) (e : Event) : LogState :=
  match e with
  | .enqueueLog sid line => { s with queue := s.queue ++ [⟨sid, .log, line⟩] }
  | .enqueueError sid emsg => { s with queue := s.queue ++ [⟨sid, .error, emsg⟩] }
  | .enqueueNoLogs => { s with queue := s.queue ++ [⟨0, .noLogs, ("")⟩] }
  | .updateSel t i d => update_selection t i d s
  | .clearSel => clear_selection s
  | .inputChanged v => on_input_changed v s
  | .tick => process_log_queue s

/-- Which events can occur in a state: a reader enqueue must carry a
session id that has actually been issued (sessions are numbered from 1 by
`_start_logs`); everything else is unconstrained. The no-logs sentinel is
deliberately unguarded: probes and watchdog timers of superseded sessions
may fire at any time. -/
def validEvent (s : LogState) : Event → Prop
  | .enqueueLog sid _ => 1 ≤ sid ∧ sid ≤ s.sessionId
  | .enqueueError sid _ => 1 ≤ sid ∧ sid ≤ s.sessionId
  | _ => True

/-- The initial widget state (`LogPane.__init__`, log_pane.py line 199). -/
def initState : LogState where
  sessionId := 0
  allLogLines := []
  display := ""
  searchFilter := ""
  filteredLineCount := 0
  waitingForLogs := false
  initialLogCheckDone := false
  showingNoLogs := false
  autoFollow := true
  currentItem := none
  currentItemData := none
  queue := []
  maxLines := 2000

/-- States reachable from the initial state by valid events. -/
inductive Reach : LogState → Prop
  | init : Reach initState
  | step {s : LogState} {e : Event} : Reach s → validEvent s e → Reach (stepEvent s e)

end Dockerview

namespace Dockerview

/-- Whether the last character of a line is (Python) whitespace, i.e.
whether `str.rstrip()` would shorten it. -/
def endsWithSpace (l : List Char) : Bool := (l.getLast?.map pyIsSpace).getD false

end Dockerview

namespace Dockerview

/-! ### Helper lemmas -/

theorem appendBounded_length_le (cap : Nat) (buf : List String) (x : String) :
    (appendBounded cap buf x).length ≤ cap := by
  simp only [appendBounded, List.length_drop, List.length_append, List.length_cons,
    List.length_nil]
  omega

theorem dropWhile_eq_self_of_head (p : Char → Bool) (l : List Char)
    (h : ∀ c, l.head? = some c → p c = false) : l.dropWhile p = l := by
  cases l with
  | nil => rfl
  | cons c t =>
      have hc := h c rfl
      simp [List.dropWhile, hc]

theorem stripAnsiGo_no_esc (l : List Char) (h : escChar ∉ l) :
    stripAnsiGo l AnsiScan.normal = l := by
  induction l with
  | nil => rfl
  | cons c t ih =>
      have hc : c ≠ escChar := fun hc => h (hc ▸ List.mem_cons_self c t)
      have ht : escChar ∉ t := fun hm => h (List.mem_cons_of_mem c hm)
      simp [stripAnsiGo, hc, ih ht]

/-! ### C2 -/

/-- C2 (confirmed): the line buffer is a bounded deque: a fold of
`appendBounded cap` over any sequence of appended lines never exceeds
`cap` entries, and appending to a buffer already at capacity `cap > 0`
drops exactly the oldest entry and keeps the survivors in order; the
capacity used by the pane defaults to 2000. -/
theorem bounded_buffer_eviction (cap : Nat) (init0 : List String) (xs : List String)
    (hinit : init0.length ≤ cap) :
    (xs.foldl (appendBounded cap) init0).length ≤ cap ∧
    (∀ (buf : List String) (x : String), 0 < cap → buf.length = cap →
      appendBounded cap buf x = buf.drop 1 ++ [x]) ∧
    initState.maxLines = 2000 := by
  refine ⟨?_, ?_, rfl⟩
  · induction xs generalizing init0 with
    | nil => simpa using hinit
    | cons x xs ih =>
        simp only [List.foldl_cons]
        exact ih _ (appendBounded_length_le cap init0 x)
  · intro buf x hcap hlen
    have h1 : buf.length + 1 - cap = 1 := by omega
    rw [appendBounded, h1, List.drop_append_of_le_length (by omega)]

/-- C2 witness: a concrete instance at capacity 2. -/
theorem bounded_buffer_eviction_witness :
    (([("c"), ("d")]).foldl (appendBounded 2) ([("a"), ("b")])).length ≤ 2 ∧
    appendBounded 2 ([("a"), ("b")]) ("x") = [("b"), ("x")] := by
  have h := bounded_buffer_eviction 2 ([("a"), ("b")]) ([("c"), ("d")]) (by decide)
  refine ⟨h.1, ?_⟩
  have h2 := h.2.1 ([("a"), ("b")]) ("x") (by decide) (by decide)
  simpa using h2

/-! ### C5 -/

/-- C5 counterexample: the sanitizer is not idempotent. On the line
`"a SPACE ESC M"` the first pass removes the two-character escape
`ESC M` and exposes a trailing space, so a second pass shortens the
string again. -/
theorem sanitizer_not_idempotent :
    sanitizeLine (sanitizeLine ("a \x1bM")) ≠ sanitizeLine ("a \x1bM") := by decide

/-- C5 amended: sanitizing already-clean text is a no-op: a line that
contains no ESC character and does not end in whitespace is returned
unchanged by the reader-side sanitizer. (Full idempotence fails: removing
an escape sequence can expose trailing whitespace, or a new escape
sequence, that a second pass would remove.) -/
theorem sanitizer_clean_noop (s : String)
    (hesc : escChar ∉ s.data) (hws : endsWithSpace s.data = false) :
    sanitizeLine s = s := by
  have hr : pyRstrip s.data = s.data := by
    unfold pyRstrip
    rw [dropWhile_eq_self_of_head, List.reverse_reverse]
    intro c hc
    rw [List.head?_reverse] at hc
    unfold endsWithSpace at hws
    rw [hc] at hws
    simpa using hws
  unfold sanitizeLine strip_ansi_codes
  rw [hr, stripAnsiGo_no_esc _ hesc]

/-- C5 amended witness. -/
theorem sanitizer_clean_noop_witness : sanitizeLine ("hello") = ("hello") :=
  sanitizer_clean_noop ("hello") (by decide) (by decide)

end Dockerview

namespace Dockerview

/-! ### C6 helper lemmas -/

theorem takeWhile_all_append (p : Char → Bool) (ds rest : List Char)
    (hds : ∀ c ∈ ds, p c = true)
    (hrest : ∀ c, rest.head? = some c → p c = false) :
    (ds ++ rest).takeWhile p = ds ∧ (ds ++ rest).dropWhile p = rest := by
  induction ds with
  | nil =>
      simp only [List.nil_append]
      constructor
      · cases rest with
        | nil => rfl
        | cons c t => simp [List.takeWhile, hrest c rfl]
      · exact dropWhile_eq_self_of_head p rest hrest
  | cons d ds ih =>
      have hd : p d = true := hds d (List.mem_cons_self d ds)
      have ih2 := ih (fun c hc => hds c (List.mem_cons_of_mem d hc))
      simp [List.takeWhile, List.dropWhile, hd, ih2.1, ih2.2]

theorem unit_not_digit {u : Char} (hu : u = 'm' ∨ u = 'h' ∨ u = 'd') :
    u.isDigit = false := by
  rcases hu with h | h | h <;> subst h <;> decide

theorem unit_not_newline {u : Char} (hu : u = 'm' ∨ u = 'h' ∨ u = 'd') :
    u ≠ '\n' := by
  rcases hu with h | h | h <;> subst h <;> decide

theorem parse_of_matches (s : String) (v : Nat) (u : Char)
    (h : SinceTokenMatches s v u) : parseSinceToken s = some (v, u) := by
  obtain ⟨ds, hne, hdig, hu, hdata, hval⟩ := h
  have hbody : sinceBody s = ds ++ [u] := by
    unfold sinceBody
    rcases hdata with h1 | h1
    · rw [h1, List.getLast?_concat, if_neg (by simpa using unit_not_newline hu)]
    · have h2 : s.data = (ds ++ [u]) ++ ['\n'] := by simp [h1]
      rw [h2, List.getLast?_concat, if_pos rfl, List.dropLast_concat]
  have htw := takeWhile_all_append Char.isDigit ds [u] hdig
    (fun c hc => by
      simp only [List.head?_cons, Option.some.injEq] at hc
      rw [← hc]
      exact unit_not_digit hu)
  unfold parseSinceToken
  rw [hbody, htw.1, htw.2]
  rw [if_pos ⟨hne, by rcases hu with h | h | h <;> subst h <;> simp⟩]
  rcases hu with h | h | h <;> subst h <;> simp [hval]

theorem matches_of_parse (s : String) (v : Nat) (u : Char)
    (h : parseSinceToken s = some (v, u)) : SinceTokenMatches s v u := by
  unfold parseSinceToken at h
  by_cases hc : (sinceBody s).takeWhile Char.isDigit ≠ [] ∧
      ((sinceBody s).dropWhile Char.isDigit = ['m'] ∨
       (sinceBody s).dropWhile Char.isDigit = ['h'] ∨
       (sinceBody s).dropWhile Char.isDigit = ['d'])
  case neg =>
    rw [if_neg hc] at h
    exact absurd h (by simp)
  rw [if_pos hc] at h
  obtain ⟨hne, hrest⟩ := hc
  have hpair := Option.some.inj h
  have hval : digitsToNat ((sinceBody s).takeWhile Char.isDigit) = v :=
    congrArg Prod.fst hpair
  have hu : ((sinceBody s).dropWhile Char.isDigit).headD 'm' = u :=
    congrArg Prod.snd hpair
  have hrestu : (sinceBody s).dropWhile Char.isDigit = [u] := by
    rcases hrest with hr | hr | hr <;> rw [hr] at hu ⊢ <;>
      simp only [List.headD_cons] at hu <;> rw [← hu]
  have huval : u = 'm' ∨ u = 'h' ∨ u = 'd' := by
    rcases hrest with hr | hr | hr <;> rw [hr] at hu <;>
      simp only [List.headD_cons] at hu
    · exact Or.inl hu.symm
    · exact Or.inr (Or.inl hu.symm)
    · exact Or.inr (Or.inr hu.symm)
  have hbody : sinceBody s = (sinceBody s).takeWhile Char.isDigit ++ [u] := by
    conv_lhs => rw [← List.takeWhile_append_dropWhile Char.isDigit (sinceBody s)]
    rw [hrestu]
  have hdig : ∀ c ∈ (sinceBody s).takeWhile Char.isDigit, c.isDigit = true :=
    fun c hcmem => List.mem_takeWhile_imp hcmem
  set D := (sinceBody s).takeWhile Char.isDigit with hD
  refine ⟨D, hne, hdig, huval, ?_, hval⟩
  by_cases hlast : s.data.getLast? = some '\n'
  · right
    have hne2 : s.data ≠ [] := by
      intro he
      rw [he] at hlast
      simp at hlast
    have hg : s.data.getLast hne2 = '\n' := by
      have h2 := List.getLast?_eq_getLast s.data hne2
      rw [h2] at hlast
      exact Option.some.inj hlast
    have hbody2 : sinceBody s = s.data.dropLast := by
      unfold sinceBody
      rw [if_pos hlast]
    calc s.data = s.data.dropLast ++ ['\n'] := by
          conv_lhs => rw [← List.dropLast_append_getLast hne2, hg]
      _ = sinceBody s ++ ['\n'] := by rw [hbody2]
      _ = (D ++ [u]) ++ ['\n'] := by rw [hbody]
      _ = D ++ [u, '\n'] := by simp
  · left
    have hbody2 : sinceBody s = s.data := by
      unfold sinceBody
      rw [if_neg hlast]
    calc s.data = sinceBody s := hbody2.symm
      _ = D ++ [u] := hbody

/-! ### C6 -/

/-- C6 (confirmed): for every token matching the anchored pattern
digits-then-unit (with the Python DOLLAR tolerance for one trailing
newline), `_convert_since_to_timestamp` returns `now - value * unit`
where the unit is 60, 3600 or 86400 seconds for m, h, d; for every
non-matching token it returns the 15-minute fallback `now - 15 * 60`.
The embedding is a total function, so no exception reaches the caller. -/
theorem convert_since_correct :
    (∀ (s : String) (v : Nat) (u : Char) (now : Int), SinceTokenMatches s v u →
      convert_since_to_timestamp now s = now - (v : Int) * (sinceUnitSeconds u : Int)) ∧
    (∀ (s : String) (now : Int), (∀ v u, ¬ SinceTokenMatches s v u) →
      convert_since_to_timestamp now s = now - 15 * 60) ∧
    sinceUnitSeconds ('m') = 60 ∧ sinceUnitSeconds ('h') = 3600 ∧
    sinceUnitSeconds ('d') = 86400 := by
  refine ⟨?_, ?_, rfl, rfl, rfl⟩
  · intro s v u now h
    unfold convert_since_to_timestamp
    rw [parse_of_matches s v u h]
  · intro s now h
    unfold convert_since_to_timestamp
    cases hp : parseSinceToken s with
    | none => rfl
    | some vu => exact absurd (matches_of_parse s vu.1 vu.2 (by rw [hp])) (h vu.1 vu.2)

theorem not_matches_of_head_not_digit (s : String) (c : Char)
    (hh : s.data.head? = some c) (hc : c.isDigit = false) :
    ∀ v u, ¬ SinceTokenMatches s v u := by
  intro v u h
  obtain ⟨ds, hne, hdig, _, hdata, _⟩ := h
  cases ds with
  | nil => exact hne rfl
  | cons a t =>
      have ha : a = c := by
        rcases hdata with h1 | h1 <;> rw [h1] at hh <;> simpa using hh
      have hd := hdig a (List.mem_cons_self a t)
      rw [ha, hc] at hd
      exact absurd hd (by simp)

/-- C6 witness: the token "5m" yields a 5-minute window and the malformed
token "abc" falls back to the 15-minute window. -/
theorem convert_since_correct_witness :
    convert_since_to_timestamp 1000000 ("5m") = 1000000 - 5 * 60 ∧
    convert_since_to_timestamp 1000000 ("abc") = 1000000 - 15 * 60 := by
  constructor
  · have h := convert_since_correct.1 ("5m") 5 'm' 1000000
      ⟨[('5')], by decide, by decide, Or.inl rfl, Or.inl (by decide), by decide⟩
    simpa using h
  · exact convert_since_correct.2.1 ("abc") 1000000
      (not_matches_of_head_not_digit ("abc") 'a' (by decide) (by decide))

end Dockerview

namespace Dockerview

/-! ### C8 -/

/-- C8 (confirmed): re-filtering is idempotent: two consecutive
`set_filter(p)` calls leave exactly the state one call leaves, because
`_refilter_logs` recomputes display and match count from the buffer and
flags, which it does not modify. -/
theorem refilter_idempotent (p : String) (s : LogState) :
    on_input_changed p (on_input_changed p s) = on_input_changed p s := rfl

/-! ### C7 -/

theorem matchesFilter_empty (l : String) : matchesFilter ("") l = true := rfl

/-- C7 (confirmed): on a non-empty buffer, setting a filter whose
(stripped) pattern matches no buffered line renders the literal
"No log lines match filter" placeholder and a match count of zero. -/
theorem no_match_placeholder (s : LogState) (p : String)
    (hbuf : s.allLogLines ≠ [])
    (hnomatch : ∀ l ∈ s.allLogLines, matchesFilter (pyStrip p) l = false) :
    (on_input_changed p s).display = "No log lines match filter" ∧
    (on_input_changed p s).filteredLineCount = 0 := by
  have hflt : pyStrip p ≠ "" := by
    intro he
    obtain ⟨l, hl⟩ := List.exists_mem_of_ne_nil s.allLogLines hbuf
    have h1 := hnomatch l hl
    rw [he, matchesFilter_empty] at h1
    exact absurd h1 (by simp)
  have hnil : s.allLogLines.filter (fun l => matchesFilter (pyStrip p) l) = [] :=
    List.filter_eq_nil_iff.mpr (fun l hl => by simp [hnomatch l hl])
  constructor
  · show viewOf (pyStrip p) s.allLogLines s.showingNoLogs s.currentItem = _
    unfold viewOf
    rw [if_neg (by simp [hbuf]), hnil]
    simp [hflt, hbuf]
  · show countOf (pyStrip p) s.allLogLines s.showingNoLogs = 0
    unfold countOf
    rw [if_neg (by simp [hbuf]), hnil]
    rfl

/-- C7 witness. -/
theorem no_match_placeholder_witness :
    (on_input_changed ("z") { initState with allLogLines := [("hello")] }).display
      = "No log lines match filter" ∧
    (on_input_changed ("z") { initState with allLogLines := [("hello")] }).filteredLineCount
      = 0 :=
  no_match_placeholder ({ initState with allLogLines := [("hello")] }) ("z")
    (by decide) (by decide)

/-! ### C4 -/

/-- C4 (confirmed): draining a Data record of the current session always
appends the line to the bounded buffer; the line is appended to the
rendered view text (possibly after the pending placeholder text is
cleared) and the match count is incremented exactly when the line matches
the current filter, where the empty pattern matches every line. The
Scenario A instance: draining lines a, b, c of session 1 with an empty
filter renders the view text a-b-c in order. -/
theorem append_semantics (s : LogState) (c : String) :
    ((processOne s ⟨s.sessionId, MsgType.log, c⟩).1.allLogLines
        = appendBounded s.maxLines s.allLogLines c) ∧
    (matchesFilter s.searchFilter c = true →
      (processOne s ⟨s.sessionId, MsgType.log, c⟩).1.filteredLineCount
          = s.filteredLineCount + 1 ∧
      ∃ pre : String, (processOne s ⟨s.sessionId, MsgType.log, c⟩).1.display
          = pre ++ c ++ "\n" ∧ (pre = s.display ∨ pre = "")) ∧
    (matchesFilter s.searchFilter c = false →
      (processOne s ⟨s.sessionId, MsgType.log, c⟩).1.filteredLineCount
          = s.filteredLineCount ∧
      (processOne s ⟨s.sessionId, MsgType.log, c⟩).1.display = s.display) ∧
    (∀ l : String, matchesFilter ("") l = true) ∧
    (process_log_queue { initState with
        sessionId := 1
        queue := [⟨1, MsgType.log, ("a")⟩, ⟨1, MsgType.log, ("b")⟩,
                  ⟨1, MsgType.log, ("c")⟩] }).display = "a\nb\nc\n" ∧
    (process_log_queue { initState with
        sessionId := 1
        queue := [⟨1, MsgType.log, ("a")⟩, ⟨1, MsgType.log, ("b")⟩,
                  ⟨1, MsgType.log, ("c")⟩] }).allLogLines = [("a"), ("b"), ("c")] := by
  have hred : processOne s ⟨s.sessionId, MsgType.log, c⟩ =
      (if matchesFilter s.searchFilter c then
        ({ s with
            allLogLines := appendBounded s.maxLines s.allLogLines c
            display := (if s.showingNoLogs then ("") else
                (if s.searchFilter ≠ "" ∧ s.filteredLineCount = 0 then ("") else s.display))
              ++ c ++ "\n"
            filteredLineCount := s.filteredLineCount + 1
            showingNoLogs := false }, true)
      else ({ s with allLogLines := appendBounded s.maxLines s.allLogLines c }, true)) := by
    unfold processOne
    rw [if_neg (by simp)]
  refine ⟨?_, ?_, ?_, fun l => matchesFilter_empty l, by decide, by decide⟩
  · rw [hred]
    by_cases hm : matchesFilter s.searchFilter c
    · rw [if_pos hm]
    · rw [if_neg hm]
  · intro hm
    rw [hred, if_pos hm]
    refine ⟨rfl, ⟨_, rfl, ?_⟩⟩
    by_cases h1 : s.showingNoLogs = true
    · right
      simp [h1]
    · by_cases h2 : s.searchFilter ≠ "" ∧ s.filteredLineCount = 0
      · right
        simp [h1, h2]
      · left
        simp [h1, h2]
  · intro hm
    rw [hred, if_neg (by simp [hm])]
    exact ⟨rfl, rfl⟩

end Dockerview

namespace Dockerview

/-- C4 witness: a concrete matching drain of line a under session 1. -/
theorem append_semantics_witness :
    (processOne { initState with sessionId := 1 } ⟨1, MsgType.log, ("a")⟩).1.allLogLines
      = appendBounded 2000 [] ("a") ∧
    (processOne { initState with sessionId := 1 } ⟨1, MsgType.log, ("a")⟩).1.filteredLineCount
      = 1 := by
  have h := append_semantics ({ initState with sessionId := 1 }) ("a")
  exact ⟨h.1, (h.2.1 rfl).1⟩

/-! ### C9 -/

/-- C9 (confirmed): a call to `update_selection` with the currently
selected (kind, id) that does not cross a running/stopped status boundary
only stores the new metadata: session id, buffer, filter, match count and
rendered view (indeed every other state component, including the intake
queue) are untouched, and no session teardown or restart happens. -/
theorem reselection_frame (s : LogState) (t i : String) (d : ItemData)
    (hsel : s.currentItem = some ((t, i)))
    (hnc : t = "container" → itemTruthy s.currentItemData = true →
      statusCrossed (pyLower (itemGet (s.currentItemData.getD []) ("status") ("")))
        (pyLower (itemGet d ("status") (""))) = false) :
    update_selection t i d s = { s with currentItemData := some d } := by
  unfold update_selection
  rw [if_pos hsel]
  by_cases hc : t = "container" ∧ itemTruthy s.currentItemData = true
  · rw [if_pos hc, if_neg (by simp [hnc hc.1 hc.2])]
  · rw [if_neg hc]

/-- C9 witness: a metadata-only refresh of the selected running
container. -/
theorem reselection_frame_witness :
    update_selection ("container") ("c1") ([(("status"), ("running (healthy)"))])
      { initState with
          currentItem := some (("container"), ("c1"))
          currentItemData := some ([(("status"), ("running"))]) }
    = { initState with
          currentItem := some (("container"), ("c1"))
          currentItemData := some ([(("status"), ("running (healthy)"))]) } :=
  reselection_frame
    ({ initState with
        currentItem := some (("container"), ("c1"))
        currentItemData := some ([(("status"), ("running"))]) })
    ("container") ("c1") ([(("status"), ("running (healthy)"))]) rfl
    (fun _ _ => by decide)

/-! ### C10 -/

/-- C10 (confirmed, implicit behavior): the drain step skips a queued
record exactly when its session id is nonzero and differs from the
current session id (and a skipped record changes nothing); consequently
every record tagged with session id 0 — in particular the no-logs
sentinel, which `_check_no_logs_found` always enqueues with session id
0 — is processed regardless of the current session id, and while the pane
is waiting for its first line it replaces the display text with the
"no logs found" message. -/
theorem session_zero_bypass :
    (∀ (s : LogState) (r : Record),
      (processOne s r).2 = false ↔ (r.sid ≠ 0 ∧ r.sid ≠ s.sessionId)) ∧
    (∀ (s : LogState) (r : Record),
      (processOne s r).2 = false → processOne s r = (s, false)) ∧
    (∀ s : LogState, s.waitingForLogs = true →
      (processOne s ⟨0, MsgType.noLogs, ("")⟩).1.display = noLogsMessage s.currentItem ∧
      (processOne s ⟨0, MsgType.noLogs, ("")⟩).2 = true) := by
  have hproc : ∀ (s : LogState) (r : Record), ¬(r.sid ≠ 0 ∧ r.sid ≠ s.sessionId) →
      (processOne s r).2 = true := by
    intro s r hg
    unfold processOne
    rw [if_neg hg]
    obtain ⟨sid, msg, content⟩ := r
    cases msg <;> dsimp only
    · by_cases hm : matchesFilter s.searchFilter content = true
      · rw [if_pos hm]
      · rw [if_neg hm]
    · by_cases hw : s.waitingForLogs = true
      · rw [if_pos hw]
      · rw [if_neg hw]
  refine ⟨?_, ?_, ?_⟩
  · intro s r
    constructor
    · intro h
      by_contra hg
      rw [hproc s r hg] at h
      exact absurd h (by simp)
    · intro hg
      unfold processOne
      rw [if_pos hg]
  · intro s r h
    by_cases hg : r.sid ≠ 0 ∧ r.sid ≠ s.sessionId
    · unfold processOne
      rw [if_pos hg]
    · rw [hproc s r hg] at h
      exact absurd h (by simp)
  · intro s hw
    constructor
    · show (processOne s ⟨0, MsgType.noLogs, ("")⟩).1.display = _
      unfold processOne
      rw [if_neg (by simp)]
      dsimp only
      rw [if_pos hw]
    · unfold processOne
      rw [if_neg (by simp)]
      dsimp only
      rw [if_pos hw]

/-- C10 witness: with current session 5, the stale Data record tagged 3
is skipped while the session-0 sentinel is processed and overwrites the
display. -/
theorem session_zero_bypass_witness :
    (processOne { initState with
        sessionId := 5
        waitingForLogs := true } ⟨3, MsgType.log, ("x")⟩).2 = false ∧
    (processOne { initState with
        sessionId := 5
        waitingForLogs := true } ⟨0, MsgType.noLogs, ("")⟩).1.display
      = noLogsMessage none := by
  constructor
  · exact (session_zero_bypass.1 _ _).mpr ⟨by decide, by decide⟩
  · exact (session_zero_bypass.2.2 ({ initState with
      sessionId := 5
      waitingForLogs := true }) rfl).1

end Dockerview

namespace Dockerview

/-! ### C1: queue-shape lemmas and the session-tag invariant -/

theorem processOne_queue_eq (s : LogState) (r : Record) :
    (processOne s r).1.queue = s.queue := by
  unfold processOne
  split
  · rfl
  · split
    · split <;> rfl
    · rfl
    · split <;> rfl

theorem drainBatch_queue_mem (n : Nat) :
    ∀ (s : LogState) (p : Nat) (r : Record),
      r ∈ (drainBatch n s p).1.queue → r ∈ s.queue := by
  induction n with
  | zero =>
      intro s p r h
      simpa [drainBatch] using h
  | succ n ih =>
      intro s p r h
      unfold drainBatch at h
      cases hq : s.queue with
      | nil =>
          rw [hq] at h
          dsimp only at h
          rwa [hq] at h
      | cons r0 rest =>
          rw [hq] at h
          dsimp only at h
          have h2 := ih _ _ _ h
          rw [processOne_queue_eq] at h2
          dsimp only at h2
          exact List.mem_cons_of_mem _ h2

theorem process_log_queue_queue_mem (s : LogState) (r : Record)
    (h : r ∈ (process_log_queue s).queue) : r ∈ s.queue := by
  unfold process_log_queue at h
  dsimp only at h
  split at h
  · split at h
    · exact drainBatch_queue_mem 50 s 0 r h
    · exact drainBatch_queue_mem 50 s 0 r h
  · exact drainBatch_queue_mem 50 s 0 r h

theorem start_logs_queue (s : LogState) : (start_logs s).queue = s.queue := by
  unfold start_logs
  split <;> rfl

theorem handle_status_change_queue (d : ItemData) (s : LogState) :
    (handle_status_change d s).queue = [] := by
  unfold handle_status_change
  dsimp only
  split
  · rfl
  · split
    · rw [start_logs_queue]
    · rfl

theorem update_selection_queue (t i : String) (d : ItemData) (s : LogState) :
    (update_selection t i d s).queue = s.queue ∨ (update_selection t i d s).queue = [] := by
  unfold update_selection
  dsimp only
  split
  · split
    · split
      · exact Or.inr (handle_status_change_queue d s)
      · exact Or.inl rfl
    · exact Or.inl rfl
  · split
    · exact Or.inr rfl
    · split
      · exact Or.inr rfl
      · right
        rw [start_logs_queue]

/-- Every Data or Error record ever present in the intake queue carries
the (nonzero) session id of the reader that produced it: session ids are
issued from 1, and only the no-logs sentinel is tagged 0. -/
theorem queue_line_records_tagged {s : LogState} (hs : Reach s) :
    ∀ r ∈ s.queue, (r.msg = MsgType.log ∨ r.msg = MsgType.error) → r.sid ≠ 0 := by
  induction hs with
  | init =>
      intro r hr
      simp [initState] at hr
  | step hre hv ih =>
      rename_i s e
      intro r hr hk
      cases e with
      | enqueueLog sid line =>
          simp only [stepEvent] at hr
          rcases List.mem_append.mp hr with h | h
          · exact ih r h hk
          · have hre2 : r = ⟨sid, MsgType.log, line⟩ := by simpa using h
            obtain ⟨h1, _⟩ := hv
            rw [hre2]
            simp only [ne_eq]
            omega
      | enqueueError sid emsg =>
          simp only [stepEvent] at hr
          rcases List.mem_append.mp hr with h | h
          · exact ih r h hk
          · have hre2 : r = ⟨sid, MsgType.error, emsg⟩ := by simpa using h
            obtain ⟨h1, _⟩ := hv
            rw [hre2]
            simp only [ne_eq]
            omega
      | enqueueNoLogs =>
          simp only [stepEvent] at hr
          rcases List.mem_append.mp hr with h | h
          · exact ih r h hk
          · have hre2 : r = ⟨0, MsgType.noLogs, ("")⟩ := by simpa using h
            rw [hre2] at hk
            simp at hk
      | updateSel t i d =>
          simp only [stepEvent] at hr
          rcases update_selection_queue t i d s with hq | hq
          · rw [hq] at hr
            exact ih r hr hk
          · rw [hq] at hr
            simp at hr
      | clearSel =>
          simp only [stepEvent, clear_selection] at hr
          exact absurd hr (by simp)
      | inputChanged v =>
          exact ih r hr hk
      | tick =>
          exact ih r (process_log_queue_queue_mem s r hr) hk

/-- C1 (confirmed): stale-session rejection. In every reachable state —
i.e. under every interleaving of reader enqueues, session-id increments
and the other events — draining a queued Data or Error record whose
session tag differs from the current session id leaves the entire state
(in particular the line buffer and the rendered view) unchanged and
processes nothing. -/
theorem stale_session_rejection (s : LogState) (hs : Reach s) (r : Record)
    (hmem : r ∈ s.queue) (hkind : r.msg = MsgType.log ∨ r.msg = MsgType.error)
    (hstale : r.sid ≠ s.sessionId) :
    processOne s r = (s, false) := by
  have hnz : r.sid ≠ 0 := queue_line_records_tagged hs r hmem hkind
  unfold processOne
  rw [if_pos ⟨hnz, hstale⟩]

/-- C1 witness: select container c1 (session 1), reselect to c2
(session 2, queue cleared), then a still-running session-1 reader
enqueues a stale line; the drain step drops it without touching the
state. -/
theorem stale_session_rejection_witness :
    processOne
      (stepEvent (stepEvent (stepEvent initState
        (Event.updateSel ("container") ("c1") ([(("status"), ("running"))])))
        (Event.updateSel ("container") ("c2") ([(("status"), ("running"))])))
        (Event.enqueueLog 1 ("stale")))
      ⟨1, MsgType.log, ("stale")⟩
    = (stepEvent (stepEvent (stepEvent initState
        (Event.updateSel ("container") ("c1") ([(("status"), ("running"))])))
        (Event.updateSel ("container") ("c2") ([(("status"), ("running"))])))
        (Event.enqueueLog 1 ("stale")), false) := by
  have h1 : Reach (stepEvent initState
      (Event.updateSel ("container") ("c1") ([(("status"), ("running"))]))) :=
    Reach.step Reach.init trivial
  have h2 : Reach (stepEvent (stepEvent initState
      (Event.updateSel ("container") ("c1") ([(("status"), ("running"))])))
      (Event.updateSel ("container") ("c2") ([(("status"), ("running"))]))) :=
    Reach.step h1 trivial
  have h3 : Reach (stepEvent (stepEvent (stepEvent initState
      (Event.updateSel ("container") ("c1") ([(("status"), ("running"))])))
      (Event.updateSel ("container") ("c2") ([(("status"), ("running"))])))
      (Event.enqueueLog 1 ("stale"))) :=
    Reach.step h2 (by constructor <;> decide)
  exact stale_session_rejection _ h3 ⟨1, MsgType.log, ("stale")⟩
    (by decide) (Or.inl rfl) (by decide)

end Dockerview

namespace Dockerview

/-! ### C3 -/

/-- C3 counterexample: the round trip fails in the reachable state in
which the "no logs found" sentinel message is showing over an empty
buffer: select a running container (session 1, empty buffer), let the
no-logs probe enqueue its sentinel, drain it, then call `set_filter("x")`
followed by `set_filter("")`. `_refilter_logs` deliberately preserves the
placeholder message, so the final view is the "No logs found..." text and
not the rendering of the (empty) buffer contents. -/
theorem filter_reset_counterexample :
    (on_input_changed ("")
        (applyFilters ([("x")])
          (stepEvent (stepEvent (stepEvent initState
            (Event.updateSel ("container") ("c1") ([(("status"), ("running"))])))
            Event.enqueueNoLogs) Event.tick))).display ≠
      renderAll (applyFilters ([("x")])
          (stepEvent (stepEvent (stepEvent initState
            (Event.updateSel ("container") ("c1") ([(("status"), ("running"))])))
            Event.enqueueNoLogs) Event.tick)).allLogLines ∧
    Reach (stepEvent (stepEvent (stepEvent initState
            (Event.updateSel ("container") ("c1") ([(("status"), ("running"))])))
            Event.enqueueNoLogs) Event.tick) := by
  constructor
  · decide
  · exact Reach.step (Reach.step (Reach.step Reach.init trivial) trivial) trivial

/-- C3 amended: after any sequence of `set_filter(p)` calls, a final
`set_filter("")` renders exactly the full buffer content in original
insertion order — except in the states where the "no logs found"
placeholder is showing over an empty buffer, where the placeholder is
preserved instead. -/
theorem filter_reset_round_trip (s : LogState) (ps : List String)
    (h : s.showingNoLogs = false ∨ s.allLogLines ≠ []) :
    (on_input_changed ("") (applyFilters ps s)).display
      = renderAll (applyFilters ps s).allLogLines := by
  have hpres : ∀ (qs : List String) (s0 : LogState),
      (applyFilters qs s0).allLogLines = s0.allLogLines ∧
      (applyFilters qs s0).showingNoLogs = s0.showingNoLogs := by
    intro qs
    induction qs with
    | nil => exact fun s0 => ⟨rfl, rfl⟩
    | cons q qs ih =>
        intro s0
        simpa [applyFilters] using ih (on_input_changed q s0)
  have h' : (applyFilters ps s).showingNoLogs = false ∨
      (applyFilters ps s).allLogLines ≠ [] := by
    rw [(hpres ps s).1, (hpres ps s).2]
    exact h
  show viewOf ("") (applyFilters ps s).allLogLines (applyFilters ps s).showingNoLogs
      (applyFilters ps s).currentItem = renderAll (applyFilters ps s).allLogLines
  set s' := applyFilters ps s with hs'
  have hfil : s'.allLogLines.filter (fun l => matchesFilter ("") l) = s'.allLogLines :=
    List.filter_eq_self.mpr (fun l _ => matchesFilter_empty l)
  unfold viewOf renderAll
  by_cases hb : s'.allLogLines = []
  · have hshow : s'.showingNoLogs = false := by
      rcases h' with h1 | h1
      · exact h1
      · exact absurd hb h1
    rw [if_neg (by simp [hshow])]
    dsimp only
    rw [hfil]
    simp [hb]
  · rw [if_neg (by simp [hb])]
    dsimp only
    rw [hfil]
    simp [hb]

/-- C3 amended witness. -/
theorem filter_reset_round_trip_witness :
    (on_input_changed ("") (applyFilters ([("b")])
        { initState with allLogLines := [("a"), ("b")] })).display
      = renderAll (applyFilters ([("b")])
        { initState with allLogLines := [("a"), ("b")] }).allLogLines :=
  filter_reset_round_trip ({ initState with allLogLines := [("a"), ("b")] })
    ([("b")]) (Or.inl rfl)

end Dockerview
